import Mathlib

/-!
Verification of the NeuroView backend ML inference path
(`app/services/ml_prediction_service.py` and
`app/controllers/image_controller.py`) against its specification.

The Python code is shallowly embedded: numpy row vectors become `List ℝ`,
numpy 2-D arrays become `List (List ℝ)` (list of rows), float arithmetic is
modelled by exact real arithmetic, and every numpy / PIL / sklearn call that
can raise is modelled as an `Except String` computation whose `error` case
stands for the raised exception (the strings are representative of the
library error messages, whose exact text the service never inspects).

External library behaviour that the repository relies on is embedded at the
granularity the service observes it:
  - `PIL.Image.open` either decodes bytes into an image or raises; the
    decodability of a byte stream is therefore part of the input data
    (`ByteStream.decodable` / `ByteStream.garbage`).
  - `img.convert("L").resize((32, 32))` always yields a 32×32 grid of
    grayscale values; a decoded image is represented by that resulting grid
    (`PILImage.pix r c`, meaningful for `r, c < 32`).
  - the `sklearn` `StandardScaler.transform` method computes `(x - mean) / scale`
    per dimension and raises on a feature-count mismatch.
-/

set_option maxRecDepth 10000

namespace NeuroView

noncomputable section

/-- Maximum of a list of reals, as computed by `np.max` on a non-empty row
(`np.max` raises on an empty array; callers guard non-emptiness). The
`[]` case returns a junk value and is never exercised by guarded callers. -/
def listMax : List ℝ → ℝ
  | [] => 0
  | [a] => a
  | a :: b :: t => max a (listMax (b :: t))

/-- Index of the first occurrence of the maximum, as computed by
`np.argmax` (ties broken by the lowest index). -/
def npArgmax : List ℝ → ℕ
  | [] => 0
  | [_] => 0
  | a :: b :: t => if a < listMax (b :: t) then npArgmax (b :: t) + 1 else 0

/-- `np.max` over a whole array: raises on an empty array, otherwise
returns the maximum. -/
def npMaxE (l : List ℝ) : Except String ℝ :=
  match l with
  | [] => .error "zero-size array to reduction operation maximum which has no identity"
  | _ :: _ => .ok (listMax l)

/-- Number of columns of a matrix stored as a list of rows. A real numpy
2-D array is rectangular, so the length of the first row is the column
count. -/
def matCols (W : List (List ℝ)) : ℕ := (W.headD []).length

/-- Entry `j` of the product of row vector `x` with matrix `W`:
`Σ i, x i * W i j`, computed positionally along the shared dimension. -/
def dotCol (x : List ℝ) (W : List (List ℝ)) (j : ℕ) : ℝ :=
  (List.zipWith (fun xi row => xi * row.getD j 0) x W).sum

/-- Row-vector-by-matrix product `x @ W` (defined when the shapes agree;
the shape check lives in `npMatMulRow`). -/
def rowMatMul (x : List ℝ) (W : List (List ℝ)) : List ℝ :=
  (List.range (matCols W)).map (dotCol x W)

/-- `x @ W` for a single-row `x`: numpy raises a `ValueError` when the
core dimensions mismatch, otherwise multiplies. -/
def npMatMulRow (x : List ℝ) (W : List (List ℝ)) : Except String (List ℝ) :=
  if x.length = W.length then .ok (rowMatMul x W)
  else .error "matmul: input operand 1 has a mismatch in its core dimension 0"

/-- Elementwise `u + v` with numpy broadcasting for a `(1, m)` row against
a `(k,)` vector: defined when the lengths agree or one side has length 1,
otherwise numpy raises a broadcast error. -/
def npAddRow (u v : List ℝ) : Except String (List ℝ) :=
  if u.length = v.length then .ok (List.zipWith (fun a b => a + b) u v)
  else if v.length = 1 then .ok (u.map (fun a => a + v.headD 0))
  else if u.length = 1 then .ok (v.map (fun b => u.headD 0 + b))
  else .error "operands could not be broadcast together"

/-- The fixed `alpha` default of `_leaky_relu`. -/
def leakyAlpha : ℝ := 0.01

/-- `_leaky_relu`: `np.where(x > 0, x, alpha * x)` applied elementwise. -/
def leakyRelu (x : List ℝ) : List ℝ :=
  x.map (fun a => if 0 < a then a else leakyAlpha * a)

/-- `_softmax` on a single row: `exp_vals = np.exp(x - np.max(x, axis=1))`
then `exp_vals / np.sum(exp_vals)`. `np.max` raises on an empty row. -/
def softmaxRow (z : List ℝ) : Except String (List ℝ) :=
  match z with
  | [] => .error "zero-size array to reduction operation maximum which has no identity"
  | _ :: _ =>
    let e := z.map (fun v => Real.exp (v - listMax z))
    .ok (e.map (fun v => v / e.sum))

/-- The `scaler` entry of the model bundle: sklearn `StandardScaler`
normalization parameters (`mean_` and `scale_`, one per feature). -/
structure StandardScaler where
  mean : List ℝ
  scale : List ℝ

/-- The deserialized model bundle: the dict pickled in
`best_brain_nn_model.pkl` with keys `W1`, `b1`, `W2`, `b2`, `W3`, `b3`,
`scaler`. -/
structure ModelBundle where
  W1 : List (List ℝ)
  b1 : List ℝ
  W2 : List (List ℝ)
  b2 : List ℝ
  W3 : List (List ℝ)
  b3 : List ℝ
  scaler : StandardScaler

/-- `MLPredictionService` state after `__init__`: `self.model` is either
`None` or the deserialized bundle (`self.label_map` is the constant
`labelMap`). -/
structure MLService where
  model : Option ModelBundle

/-- `self.label_map` values in key order `{0, 1, 2, 3}`. -/
def labelMap : List String := ["glioma", "meningioma", "notumor", "pituitary"]

/-- `self.label_map[i]`: a dict lookup that raises `KeyError(i)` when the
key is absent. -/
def labelGet (i : ℕ) : Except String String :=
  match labelMap.get? i with
  | some s => .ok s
  | none => .error (toString i)

/-- `_forward_pass` given a loaded bundle: the fixed 3-layer computation
`Z1 = X @ W1 + b1; A1 = LeakyReLU(Z1); Z2 = A1 @ W2 + b2; A2 = LeakyReLU(Z2);
Z3 = A2 @ W3 + b3; A3 = softmax(Z3)`, with each numpy step able to raise. -/
def forwardPass (M : ModelBundle) (x : List ℝ) : Except String (List ℝ) :=
  match npMatMulRow x M.W1 with
  | .error e => .error e
  | .ok z1p =>
    match npAddRow z1p M.b1 with
    | .error e => .error e
    | .ok z1 =>
      match npMatMulRow (leakyRelu z1) M.W2 with
      | .error e => .error e
      | .ok z2p =>
        match npAddRow z2p M.b2 with
        | .error e => .error e
        | .ok z2 =>
          match npMatMulRow (leakyRelu z2) M.W3 with
          | .error e => .error e
          | .ok z3p =>
            match npAddRow z3p M.b3 with
            | .error e => .error e
            | .ok z3 => softmaxRow z3

/-- `_forward_pass` including the `self.model is None` guard that raises
`"Model not loaded. Cannot perform prediction."`. -/
def forwardPassSvc (svc : MLService) (x : List ℝ) : Except String (List ℝ) :=
  match svc.model with
  | none => .error "Model not loaded. Cannot perform prediction."
  | some M => forwardPass M x

/-- A decoded image, represented by the 32×32 grayscale grid that
`img.convert("L").resize((32, 32))` produces from it (PIL guarantees the
output size; grayscale values are the 0–255 integers of mode `L`).
`pix r c` is the pixel at row `r`, column `c`, meaningful for `r, c < 32`. -/
structure PILImage where
  pix : ℕ → ℕ → ℕ

/-- Raw image bytes as `PIL.Image.open` sees them: either they decode to
an image or `open` raises (`garbage`). -/
inductive ByteStream
  | decodable (img : PILImage)
  | garbage

/-- The `image_data` argument of `_preprocess_image` / `predict_brain_tumor`:
`bytes`, an already-decoded `PIL.Image.Image`, or any other type (which the
`isinstance` chain rejects). -/
inductive ImageInput
  | bytes (b : ByteStream)
  | pil (img : PILImage)
  | other

/-- `np.array(img_resized).flatten().astype(np.float32)`: the 32×32 grid
flattened row-major into 1024 reals. -/
def flattenRowMajor (img : PILImage) : List ℝ :=
  (List.range 32).flatMap (fun r => (List.range 32).map (fun c => ((img.pix r c : ℕ) : ℝ)))

/-- `scaler.transform` on a single row: `(x - mean_) / scale_` per
dimension; sklearn raises a `ValueError` when the feature count differs
from the fitted one. -/
def scalerTransform (s : StandardScaler) (x : List ℝ) : Except String (List ℝ) :=
  if x.length = s.mean.length ∧ x.length = s.scale.length then
    .ok (List.zipWith (fun a p => (a - p.1) / p.2) x (s.mean.zip s.scale))
  else .error "X has a different number of features than during fitting"

/-- The body of `_preprocess_image` after an image has been obtained:
flatten, then `self.model["scaler"].transform`. Subscripting a `None`
model raises a `TypeError`; every exception is re-raised with the
`"Image preprocessing failed: "` prefix. -/
def preprocessDecoded (svc : MLService) (img : PILImage) : Except String (List ℝ) :=
  match svc.model with
  | none => .error "Image preprocessing failed: NoneType object is not subscriptable"
  | some M =>
    match scalerTransform M.scaler (flattenRowMajor img) with
    | .ok v => .ok v
    | .error e => .error ("Image preprocessing failed: " ++ e)

/-- `_preprocess_image`: dispatch on the input type, decode bytes via
`PIL.Image.open` (raising on undecodable bytes), reject unsupported types
with a `ValueError`; all failures carry the
`"Image preprocessing failed: "` prefix of the re-raise. -/
def preprocessSvc (svc : MLService) (input : ImageInput) : Except String (List ℝ) :=
  match input with
  | .other => .error "Image preprocessing failed: Invalid image data type. Expected bytes or PIL Image."
  | .bytes .garbage => .error "Image preprocessing failed: cannot identify image file"
  | .bytes (.decodable img) => preprocessDecoded svc img
  | .pil img => preprocessDecoded svc img

/-- The values bound on the success path of `predict_brain_tumor`:
`predicted_class`, `tumor_type`, `confidence`, the probability row, and
the `class_probabilities` entries in label order. -/
structure SuccessPayload where
  pc : ℕ
  tt : String
  conf : ℝ
  probs : List ℝ
  cps : List (String × ℝ)

/-- The dict returned by `predict_brain_tumor`, with `Option` for the keys
that only one of the two branches populates. -/
structure PredictionResult where
  success : Bool
  error : Option String
  predicted_class : Option ℕ
  tumor_type : Option String
  confidence : ℝ
  probabilities : List ℝ
  class_probabilities : List (String × ℝ)
  message : Option String

/-- The `class_probabilities` comprehension body for a list of indices:
`self.label_map[i]` (raising `KeyError` on a missing key) paired with
`float(probabilities[0][i])` (raising `IndexError` out of bounds). -/
def classProbAux (probs : List ℝ) : List ℕ → Except String (List (String × ℝ))
  | [] => .ok []
  | i :: is =>
    match labelGet i with
    | .error e => .error e
    | .ok s =>
      match probs.get? i with
      | none => .error "index is out of bounds for axis 0"
      | some p =>
        match classProbAux probs is with
        | .error e => .error e
        | .ok rest => .ok ((s, p) :: rest)

/-- `{self.label_map[i]: float(probabilities[0][i]) for i in range(len(self.label_map))}`. -/
def classProbabilities (probs : List ℝ) : Except String (List (String × ℝ)) :=
  classProbAux probs (List.range labelMap.length)

/-- The `try` body of `predict_brain_tumor`: preprocess, forward pass,
`int(np.argmax(...))`, `self.label_map[...]`, `float(np.max(...))`, and
the `class_probabilities` comprehension, any of which can raise. -/
def predictExcept (svc : MLService) (input : ImageInput) : Except String SuccessPayload :=
  match preprocessSvc svc input with
  | .error e => .error e
  | .ok x =>
    match forwardPassSvc svc x with
    | .error e => .error e
    | .ok probs =>
      match labelGet (npArgmax probs) with
      | .error e => .error e
      | .ok tt =>
        match npMaxE probs with
        | .error e => .error e
        | .ok conf =>
          match classProbabilities probs with
          | .error e => .error e
          | .ok cps => .ok ⟨npArgmax probs, tt, conf, probs, cps⟩

/-- `predict_brain_tumor`: on success the populated result dict, on any
exception the uniform failure dict with the `"Prediction failed: "`
message (the `message` field elides the `{confidence:.2%}` float
formatting, which no claim depends on). -/
def predictBrainTumor (svc : MLService) (input : ImageInput) : PredictionResult :=
  match predictExcept svc input with
  | .error e =>
    { success := false, error := some ("Prediction failed: " ++ e), predicted_class := none,
      tumor_type := none, confidence := 0, probabilities := [], class_probabilities := [],
      message := none }
  | .ok p =>
    { success := true, error := none, predicted_class := some p.pc, tumor_type := some p.tt,
      confidence := p.conf, probabilities := p.probs, class_probabilities := p.cps,
      message := some ("Brain scan classified as: " ++ p.tt) }

/-- The dict returned by `get_model_info`, with `Option` for branch-specific
keys. -/
structure ModelInfo where
  loaded : Bool
  error : Option String
  model_type : Option String
  input_shape : Option String
  output_classes : Option ℕ
  class_labels : List String

/-- `get_model_info`. -/
def getModelInfo (svc : MLService) : ModelInfo :=
  match svc.model with
  | none =>
    { loaded := false, error := some "Model not loaded", model_type := none,
      input_shape := none, output_classes := none, class_labels := [] }
  | some _ =>
    { loaded := true, error := none, model_type := some "Neural Network",
      input_shape := some "32x32 grayscale", output_classes := some labelMap.length,
      class_labels := labelMap }

/-- The state of the model artifact file as `_load_model` encounters it:
absent (`FileNotFoundError`), unreadable or undeserializable (any other
exception from `open`/`pickle.load`), or deserializable, in which case
`pickle.load` returns the pickled object — `None` if a `None` was pickled,
otherwise the bundle. -/
inductive ArtifactFile
  | missing
  | malformed (msg : String)
  | pickled (content : Option ModelBundle)

/-- `_load_model`: re-raises `FileNotFoundError` and every other load
error as `Exception`s with the messages below; on success returns the
deserialized object which `__init__` stores in `self.model`. -/
def loadModel : ArtifactFile → Except String (Option ModelBundle)
  | .missing => .error "ML model file not found. Please ensure the model is properly installed."
  | .malformed msg => .error ("Failed to load ML model: " ++ msg)
  | .pickled v => .ok v

/-- `MLPredictionService.__init__` (also the module-level
`ml_service = MLPredictionService()`): sets `self.model = None`, then runs
`_load_model`, whose exceptions propagate out of the constructor uncaught. -/
def initService (f : ArtifactFile) : Except String MLService :=
  match loadModel f with
  | .error e => .error e
  | .ok v => .ok { model := v }

/-- The updated image record a successful repository update returns
(an opaque payload; the controller only tests it for `None`). -/
structure ImageRecord where
  payload : String

/-- The dict returned by `ImageController.predict_and_save_brain_tumor`,
with `Option` for branch-specific keys. -/
structure ControllerResult where
  message : Option String
  error : Option String
  success : Bool
  data : Option PredictionResult
  updated_image : Option ImageRecord
  warning : Option String

/-- `ImageController.predict_and_save_brain_tumor`. `imageData = none`
models falsy `image_data` (`None` / empty bytes); the repository call
`update_image_information` is passed in as a function returning `some`
updated record or `none` on failure. -/
def predictAndSave (svc : MLService) (imageData : Option ImageInput) (imageId : String)
    (repoUpdate : String → PredictionResult → Option ImageRecord) : ControllerResult × ℕ :=
  match imageData with
  | none =>
    ({ message := none, error := some "Image data is required", success := false,
       data := none, updated_image := none, warning := none }, 400)
  | some d =>
    if imageId = "" then
      ({ message := none, error := some "Image ID is required", success := false,
         data := none, updated_image := none, warning := none }, 400)
    else
      let pr := predictBrainTumor svc d
      if pr.success then
        match repoUpdate imageId pr with
        | some updated =>
          ({ message := some "Brain tumor prediction completed and saved successfully",
             error := none, success := true, data := some pr,
             updated_image := some updated, warning := none }, 200)
        | none =>
          ({ message := some "Brain tumor prediction completed but failed to save to database",
             error := none, success := true, data := some pr, updated_image := none,
             warning := some "Prediction results could not be saved to database" }, 200)
      else
        ({ message := none, error := some (pr.error.getD "Prediction failed"),
           success := false, data := none, updated_image := none, warning := none }, 500)

/-- Spec-side dot product, written from the spec formula `Z = X·W + b`:
entry `j` of `X·W` is `Σ i, X i * W i j` over the input dimension, stated
by explicit indexing rather than by the positional zip of the code. -/
def specDot (x : List ℝ) (W : List (List ℝ)) (j : ℕ) : ℝ :=
  ((List.range x.length).map (fun i => x.getD i 0 * (W.getD i []).getD j 0)).sum

/-- Spec-side affine layer `X·W + b`, per output dimension `j`. -/
def specAffine (x : List ℝ) (W : List (List ℝ)) (b : List ℝ) : List ℝ :=
  (List.range (matCols W)).map (fun j => specDot x W j + b.getD j 0)

/-- Spec-side `LeakyReLU(x) = x if x > 0 else 0.01·x`, `alpha` fixed at
`0.01`, applied elementwise. -/
def specLeakyReLU (z : List ℝ) : List ℝ :=
  z.map (fun a => if 0 < a then a else 0.01 * a)

/-- Spec-side row-wise softmax with max-subtraction stabilization:
`exp(x - max(x)) / sum(exp(x - max(x)))`. -/
def specSoftmax (z : List ℝ) : List ℝ :=
  z.map (fun v => Real.exp (v - listMax z) / (z.map (fun w => Real.exp (w - listMax z))).sum)

/-- Spec-side 3-layer computation graph:
`A3 = Softmax(LeakyReLU(LeakyReLU(X·W1 + b1)·W2 + b2)·W3 + b3)`. -/
def specForward (M : ModelBundle) (x : List ℝ) : List ℝ :=
  specSoftmax (specAffine (specLeakyReLU (specAffine (specLeakyReLU
    (specAffine x M.W1 M.b1)) M.W2 M.b2)) M.W3 M.b3)

/-- Internal shape consistency of a model bundle (the data-model
invariants of the spec: each bias matches the output dimension of its layer,
consecutive
weight matrices chain, and the output layer is non-degenerate). -/
def validDims (M : ModelBundle) : Prop :=
  M.b1.length = matCols M.W1 ∧ M.W2.length = matCols M.W1 ∧
  M.b2.length = matCols M.W2 ∧ M.W3.length = matCols M.W2 ∧
  M.b3.length = matCols M.W3 ∧ matCols M.W3 ≠ 0

/-- A minimal shape-consistent bundle (1 input feature, hidden width 1,
4 outputs) used to instantiate theorems at a concrete model. -/
def unitModel : ModelBundle :=
  { W1 := [[0]], b1 := [0], W2 := [[0]], b2 := [0], W3 := [[0, 0, 0, 0]],
    b3 := [0, 0, 0, 0], scaler := { mean := [0], scale := [1] } }

/-- A concrete 1024-input bundle (1024 features, hidden width 1, 4 outputs,
identity scaler) whose prediction pipeline can be evaluated end to end. -/
def baseModel : ModelBundle :=
  { W1 := List.replicate 1024 [0], b1 := [0], W2 := [[0]], b2 := [0],
    W3 := [[0, 0, 0, 0]], b3 := [0, 0, 0, 0],
    scaler := { mean := List.replicate 1024 0, scale := List.replicate 1024 1 } }

/-- A service that loaded `baseModel`. -/
def baseSvc : MLService := ⟨some baseModel⟩

/-- The all-black decoded image. -/
def zeroImg : PILImage := ⟨fun _ _ => 0⟩

theorem listMax_cons (a : ℝ) (t : List ℝ) (ht : t ≠ []) :
    listMax (a :: t) = max a (listMax t) := by
  cases t with
  | nil => exact absurd rfl ht
  | cons b s => rfl

theorem le_listMax : ∀ (l : List ℝ), ∀ x ∈ l, x ≤ listMax l
  | [], x, hx => absurd hx (List.not_mem_nil x)
  | [a], x, hx => by
    rcases List.mem_singleton.mp hx with rfl
    simp [listMax]
  | a :: b :: t, x, hx => by
    rw [listMax_cons a (b :: t) (by simp)]
    rcases List.mem_cons.mp hx with rfl | hx2
    · exact le_max_left _ _
    · exact le_trans (le_listMax (b :: t) x hx2) (le_max_right _ _)

theorem npArgmax_spec : ∀ (l : List ℝ), l ≠ [] →
    npArgmax l < l.length ∧ l.getD (npArgmax l) 0 = listMax l ∧
      ∀ k < npArgmax l, l.getD k 0 < listMax l
  | [], h => absurd rfl h
  | [a], _ => by simp [npArgmax, listMax]
  | a :: b :: t, _ => by
    obtain ⟨ih1, ih2, ih3⟩ := npArgmax_spec (b :: t) (by simp)
    have hmx : listMax (a :: b :: t) = max a (listMax (b :: t)) :=
      listMax_cons a (b :: t) (by simp)
    by_cases hc : a < listMax (b :: t)
    · have ha : npArgmax (a :: b :: t) = npArgmax (b :: t) + 1 := by
        simp [npArgmax, hc]
      have hm : listMax (a :: b :: t) = listMax (b :: t) := by
        rw [hmx]; exact max_eq_right hc.le
      refine ⟨?_, ?_, ?_⟩
      · rw [ha]; simpa using ih1
      · rw [ha, hm]; simpa using ih2
      · intro k hk
        rw [ha] at hk
        rw [hm]
        cases k with
        | zero => simpa using hc
        | succ k2 =>
          have : k2 < npArgmax (b :: t) := by omega
          simpa using ih3 k2 this
    · have ha : npArgmax (a :: b :: t) = 0 := by simp [npArgmax, hc]
      have hm : listMax (a :: b :: t) = a := by
        rw [hmx]; exact max_eq_left (not_lt.mp hc)
      refine ⟨?_, ?_, ?_⟩
      · rw [ha]; simp
      · rw [ha, hm]; rfl
      · intro k hk; omega

theorem quarter_le_listMax (l : List ℝ) (h4 : l.length = 4) (hsum : l.sum = 1) :
    (1 : ℝ) / 4 ≤ listMax l := by
  have hb := List.sum_le_card_nsmul l (listMax l) (le_listMax l)
  rw [hsum, h4] at hb
  have : (4 : ℕ) • listMax l = 4 * listMax l := by
    simp [nsmul_eq_mul]
  rw [this] at hb
  linarith

theorem sum_map_div (l : List ℝ) (s : ℝ) : (l.map (fun v => v / s)).sum = l.sum / s := by
  induction l with
  | nil => simp
  | cons a t ih => simp [ih, add_div]

theorem softmaxRow_ok {z probs : List ℝ} (h : softmaxRow z = .ok probs) :
    probs.length = z.length ∧ (∀ p ∈ probs, 0 ≤ p) ∧ probs.sum = 1 := by
  cases z with
  | nil => exact absurd h (by simp [softmaxRow])
  | cons a t =>
    simp only [softmaxRow] at h
    obtain rfl := (Except.ok.injEq _ _).mp h
    set e := (a :: t).map (fun v => Real.exp (v - listMax (a :: t))) with he
    have hepos : ∀ v ∈ e, 0 < v := by
      intro v hv
      rw [he] at hv
      obtain ⟨w, _, rfl⟩ := List.mem_map.mp hv
      exact Real.exp_pos _
    have hspos : 0 < e.sum := List.sum_pos e hepos (by simp [he])
    refine ⟨?_, ?_, ?_⟩
    · rw [he]; simp
    · intro p hpmem
      obtain ⟨v, hv, rfl⟩ := List.mem_map.mp hpmem
      exact le_of_lt (div_pos (hepos v hv) hspos)
    · rw [sum_map_div, div_self (ne_of_gt hspos)]

theorem rowMatMul_length (x : List ℝ) (W : List (List ℝ)) :
    (rowMatMul x W).length = matCols W := by
  simp [rowMatMul]

theorem npMatMulRow_ok {x : List ℝ} {W : List (List ℝ)} {y : List ℝ}
    (h : npMatMulRow x W = .ok y) : x.length = W.length ∧ y = rowMatMul x W := by
  unfold npMatMulRow at h
  split_ifs at h with hlen
  exact ⟨hlen, ((Except.ok.injEq _ _).mp h).symm⟩

theorem npAddRow_ok_len {u v w : List ℝ} (h : npAddRow u v = .ok w) :
    w.length = u.length ∨ (u.length = 1 ∧ w.length = v.length) := by
  unfold npAddRow at h
  split_ifs at h with h1 h2 h3
  · left
    rw [((Except.ok.injEq _ _).mp h).symm]
    simp [h1]
  · left
    rw [((Except.ok.injEq _ _).mp h).symm]
    simp
  · right
    refine ⟨h3, ?_⟩
    rw [((Except.ok.injEq _ _).mp h).symm]
    simp

theorem forwardPass_ok {M : ModelBundle} {x probs : List ℝ}
    (h : forwardPass M x = .ok probs) :
    ∃ z3 u, u.length = matCols M.W3 ∧ npAddRow u M.b3 = .ok z3 ∧
      softmaxRow z3 = .ok probs := by
  unfold forwardPass at h
  split at h
  · exact absurd h (by simp)
  next z1p h1 =>
    split at h
    · exact absurd h (by simp)
    next z1 h2 =>
      split at h
      · exact absurd h (by simp)
      next z2p h3 =>
        split at h
        · exact absurd h (by simp)
        next z2 h4 =>
          split at h
          · exact absurd h (by simp)
          next z3p h5 =>
            split at h
            · exact absurd h (by simp)
            next z3 h6 =>
              obtain ⟨hlen, rfl⟩ := npMatMulRow_ok h5
              exact ⟨z3, _, rowMatMul_length _ _, h6, h⟩

theorem labelGet_ok {i : ℕ} {s : String} (h : labelGet i = .ok s) :
    i < labelMap.length ∧ labelMap.get? i = some s := by
  unfold labelGet at h
  split at h
  next s2 hget =>
    obtain rfl := (Except.ok.injEq _ _).mp h
    exact ⟨List.get?_eq_some.mp hget |>.1, hget⟩
  · exact absurd h (by simp)

theorem npMaxE_ok {l : List ℝ} {m : ℝ} (h : npMaxE l = .ok m) :
    l ≠ [] ∧ m = listMax l := by
  unfold npMaxE at h
  split at h
  · exact absurd h (by simp)
  · exact ⟨by simp_all, ((Except.ok.injEq _ _).mp h).symm⟩

theorem classProbAux_ok {probs : List ℝ} :
    ∀ {is : List ℕ} {cps : List (String × ℝ)}, classProbAux probs is = .ok cps →
      cps = is.map (fun i => (labelMap.getD i "", probs.getD i 0)) ∧
        ∀ i ∈ is, i < probs.length := by
  intro is
  induction is with
  | nil =>
    intro cps h
    simp only [classProbAux] at h
    obtain rfl := (Except.ok.injEq _ _).mp h
    simp
  | cons i is2 ih =>
    intro cps h
    simp only [classProbAux] at h
    split at h
    · exact absurd h (by simp)
    next s hlab =>
      split at h
      · exact absurd h (by simp)
      next p hget =>
        split at h
        · exact absurd h (by simp)
        next rest hrest =>
          obtain rfl := (Except.ok.injEq _ _).mp h
          obtain ⟨hrest2, hbound⟩ := ih hrest
          have hip : i < probs.length := (List.get?_eq_some.mp hget).1
          have hs : s = labelMap.getD i "" := by
            obtain ⟨hi, hgets⟩ := labelGet_ok hlab
            rw [List.getD_eq_getElem _ _ hi]
            rw [List.get?_eq_getElem?] at hgets
            rw [List.getElem?_eq_getElem hi] at hgets
            exact (Option.some.injEq _ _).mp hgets.symm
          have hp : p = probs.getD i 0 := by
            rw [List.getD_eq_getElem _ _ hip]
            rw [List.get?_eq_getElem?] at hget
            rw [List.getElem?_eq_getElem hip] at hget
            exact (Option.some.injEq _ _).mp hget.symm
          constructor
          · rw [hrest2, hs, hp]
            simp
          · intro j hj
            rcases List.mem_cons.mp hj with rfl | hj2
            · exact hip
            · exact hbound j hj2

theorem predictExcept_ok {svc : MLService} {input : ImageInput} {p : SuccessPayload}
    (h : predictExcept svc input = .ok p) :
    ∃ x, preprocessSvc svc input = .ok x ∧ forwardPassSvc svc x = .ok p.probs ∧
      p.pc = npArgmax p.probs ∧ labelGet (npArgmax p.probs) = .ok p.tt ∧
      npMaxE p.probs = .ok p.conf ∧ classProbabilities p.probs = .ok p.cps := by
  unfold predictExcept at h
  split at h
  · exact absurd h (by simp)
  next x hpre =>
    split at h
    · exact absurd h (by simp)
    next probs hfwd =>
      split at h
      · exact absurd h (by simp)
      next tt hlab =>
        split at h
        · exact absurd h (by simp)
        next conf hmax =>
          split at h
          · exact absurd h (by simp)
          next cps hcps =>
            obtain rfl := ((Except.ok.injEq _ _).mp h).symm
            exact ⟨x, hpre, hfwd, rfl, hlab, hmax, hcps⟩

theorem prediction_failed_ne_empty (e : String) : "Prediction failed: " ++ e ≠ "" := by
  intro hcon
  have h2 := congrArg String.length hcon
  rw [String.length_append] at h2
  have h19 : ("Prediction failed: " : String).length = 19 := by decide
  have h0 : ("" : String).length = 0 := by decide
  rw [h19, h0] at h2
  omega

/-- C2: for every input (including malformed or undecodable image bytes and
unsupported input types), `predict_brain_tumor` always returns a result
dictionary and never propagates an exception: on any upstream failure the
result has `success = false`, a non-empty error message, confidence `0.0`,
and empty probability fields. -/
theorem C2_predict_always_returns_result (svc : MLService) (input : ImageInput) :
    (predictBrainTumor svc input).success = true ∨
      ((predictBrainTumor svc input).success = false ∧
        (∃ e, (predictBrainTumor svc input).error = some e ∧ e ≠ "") ∧
        (predictBrainTumor svc input).confidence = 0 ∧
        (predictBrainTumor svc input).probabilities = [] ∧
        (predictBrainTumor svc input).class_probabilities = [] ∧
        (predictBrainTumor svc input).predicted_class = none ∧
        (predictBrainTumor svc input).tumor_type = none) := by
  cases hpe : predictExcept svc input with
  | ok p => left; simp [predictBrainTumor, hpe]
  | error e =>
    right
    refine ⟨by simp [predictBrainTumor, hpe], ⟨"Prediction failed: " ++ e, ?_, ?_⟩, ?_, ?_, ?_, ?_, ?_⟩
    · simp [predictBrainTumor, hpe]
    · exact prediction_failed_ne_empty e
    · simp [predictBrainTumor, hpe]
    · simp [predictBrainTumor, hpe]
    · simp [predictBrainTumor, hpe]
    · simp [predictBrainTumor, hpe]
    · simp [predictBrainTumor, hpe]

/-- C3: for every successful prediction, the reported predicted index is the
argmax of the probability row (ties broken by the lowest index: the entry at
the index attains the row maximum and every earlier entry is strictly below
it), the predicted label is the label at that index in the fixed ordering
`{0: glioma, 1: meningioma, 2: notumor, 3: pituitary}`, the reported
confidence equals the probability at that index, and the class-probability
mapping lists the labels in that fixed order. -/
theorem C3_formatter_consistency (svc : MLService) (input : ImageInput)
    (h : (predictBrainTumor svc input).success = true) :
    ∃ probs, (predictBrainTumor svc input).probabilities = probs ∧
      (predictBrainTumor svc input).predicted_class = some (npArgmax probs) ∧
      npArgmax probs < probs.length ∧
      probs.getD (npArgmax probs) 0 = listMax probs ∧
      (∀ k < npArgmax probs, probs.getD k 0 < listMax probs) ∧
      (predictBrainTumor svc input).tumor_type = labelMap.get? (npArgmax probs) ∧
      (predictBrainTumor svc input).confidence = probs.getD (npArgmax probs) 0 ∧
      (predictBrainTumor svc input).class_probabilities =
        (List.range labelMap.length).map (fun i => (labelMap.getD i "", probs.getD i 0)) := by
  cases hpe : predictExcept svc input with
  | error e => simp [predictBrainTumor, hpe] at h
  | ok p =>
    obtain ⟨x, hpre, hfwd, hpc, hlab, hmax, hcps⟩ := predictExcept_ok hpe
    obtain ⟨hne, hconf⟩ := npMaxE_ok hmax
    obtain ⟨hlt, hgd, hfirst⟩ := npArgmax_spec p.probs hne
    obtain ⟨hcps2, _⟩ := classProbAux_ok hcps
    refine ⟨p.probs, ?_, ?_, hlt, hgd, hfirst, ?_, ?_, ?_⟩
    · simp [predictBrainTumor, hpe]
    · simp [predictBrainTumor, hpe, hpc]
    · rw [show (predictBrainTumor svc input).tumor_type = some p.tt by
        simp [predictBrainTumor, hpe]]
      exact ((labelGet_ok hlab).2).symm
    · rw [show (predictBrainTumor svc input).confidence = p.conf by
        simp [predictBrainTumor, hpe]]
      rw [hconf, hgd]
    · rw [show (predictBrainTumor svc input).class_probabilities = p.cps by
        simp [predictBrainTumor, hpe]]
      exact hcps2

theorem forwardPass_probs {M : ModelBundle} {x probs : List ℝ}
    (h : forwardPass M x = .ok probs) (h4 : matCols M.W3 = 4)
    (hb : M.b3.length = matCols M.W3) :
    probs.length = 4 ∧ (∀ p ∈ probs, 0 ≤ p) ∧ probs.sum = 1 := by
  obtain ⟨z3, u, hu, hadd, hsm⟩ := forwardPass_ok h
  obtain ⟨hlen, hnn, hsum⟩ := softmaxRow_ok hsm
  have hz3 : z3.length = 4 := by
    rcases npAddRow_ok_len hadd with hcase | ⟨hu1, hcase⟩
    · rw [hcase, hu, h4]
    · rw [hcase, hb, h4]
  exact ⟨by rw [hlen, hz3], hnn, hsum⟩

/-- C4: for every model bundle whose output layer has four columns matching
its bias, and every input row accepted by the forward pass, each output
probability is non-negative and the four output probabilities sum to
exactly 1 in exact real arithmetic. -/
theorem C4_output_is_probability_vector {M : ModelBundle} {x probs : List ℝ}
    (h : forwardPass M x = .ok probs) (h4 : matCols M.W3 = 4)
    (hb : M.b3.length = matCols M.W3) :
    probs.length = 4 ∧ (∀ p ∈ probs, 0 ≤ p) ∧ probs.sum = 1 :=
  forwardPass_probs h h4 hb

/-- C5: for every successful prediction made with a loaded 4-way model
bundle (output layer and its bias of width 4, the data-model
invariant of the spec), the reported confidence is at least `0.25`. -/
theorem C5_confidence_at_least_uniform (svc : MLService) (M : ModelBundle) (input : ImageInput)
    (hm : svc.model = some M) (h4 : matCols M.W3 = 4) (hb : M.b3.length = matCols M.W3)
    (h : (predictBrainTumor svc input).success = true) :
    (1 : ℝ) / 4 ≤ (predictBrainTumor svc input).confidence := by
  cases hpe : predictExcept svc input with
  | error e => simp [predictBrainTumor, hpe] at h
  | ok p =>
    obtain ⟨x, hpre, hfwd, hpc, hlab, hmax, hcps⟩ := predictExcept_ok hpe
    obtain ⟨hne, hconf⟩ := npMaxE_ok hmax
    simp only [forwardPassSvc, hm] at hfwd
    obtain ⟨hlen4, hnn, hsum⟩ := forwardPass_probs hfwd h4 hb
    have hq := quarter_le_listMax p.probs hlen4 hsum
    rw [show (predictBrainTumor svc input).confidence = p.conf by
      simp [predictBrainTumor, hpe]]
    rw [hconf]
    exact hq

theorem specDot_cons (a : ℝ) (t : List ℝ) (r : List ℝ) (V : List (List ℝ)) (j : ℕ) :
    specDot (a :: t) (r :: V) j = a * r.getD j 0 + specDot t V j := by
  simp only [specDot, List.length_cons, List.range_succ_eq_map, List.map_cons,
    List.map_map, List.sum_cons, List.getD_cons_zero]
  congr 1

theorem dotCol_eq_specDot (j : ℕ) :
    ∀ (x : List ℝ) (W : List (List ℝ)), x.length = W.length → dotCol x W j = specDot x W j
  | [], W, _ => by simp [dotCol, specDot]
  | a :: t, [], h => by simp at h
  | a :: t, r :: V, h => by
    have ih := dotCol_eq_specDot j t V (by simpa using h)
    simp only [dotCol, List.zipWith_cons_cons, List.sum_cons] at ih ⊢
    rw [specDot_cons, ← ih]

theorem specAffine_length (x : List ℝ) (W : List (List ℝ)) (b : List ℝ) :
    (specAffine x W b).length = matCols W := by
  simp [specAffine]

theorem specLeakyReLU_length (z : List ℝ) : (specLeakyReLU z).length = z.length := by
  simp [specLeakyReLU]

theorem leakyRelu_eq_spec (z : List ℝ) : leakyRelu z = specLeakyReLU z := by
  simp only [leakyRelu, specLeakyReLU, leakyAlpha]

theorem affine_ok (x : List ℝ) (W : List (List ℝ)) (b : List ℝ)
    (hx : x.length = W.length) (hb : b.length = matCols W) :
    npAddRow (rowMatMul x W) b = .ok (specAffine x W b) := by
  have hlen : (rowMatMul x W).length = b.length := by rw [rowMatMul_length, hb]
  unfold npAddRow
  rw [if_pos hlen]
  congr 1
  apply List.ext_getElem
  · simp [specAffine, rowMatMul, hb]
  · intro i h1 h2
    have hi : i < matCols W := by
      simpa [specAffine] using h2
    rw [List.getElem_zipWith]
    simp only [specAffine, List.getElem_map, List.getElem_range, rowMatMul]
    rw [dotCol_eq_specDot i x W hx]
    congr 1
    rw [List.getD_eq_getElem b 0 (by omega)]

theorem softmaxRow_eq_spec (z : List ℝ) (hz : z ≠ []) :
    softmaxRow z = .ok (specSoftmax z) := by
  cases z with
  | nil => exact absurd rfl hz
  | cons a t =>
    simp only [softmaxRow, specSoftmax, List.map_map]
    rfl

/-- C1: for every input feature vector accepted by a shape-consistent model
bundle, the inference engine output equals the fixed 3-layer computation
graph `Z1 = X·W1 + b1`, `A1 = LeakyReLU(Z1)` (with
`LeakyReLU(x) = x if x > 0 else 0.01·x`), `Z2 = A1·W2 + b2`,
`A2 = LeakyReLU(Z2)`, `Z3 = A2·W3 + b3`, `A3 = Softmax(Z3)` with row-wise
max-subtraction-stabilized softmax, each stage written index-wise from the
spec. -/
theorem C1_forward_pass_is_spec_graph (M : ModelBundle) (x : List ℝ)
    (hv : validDims M) (hx : x.length = M.W1.length) :
    forwardPass M x = .ok (specForward M x) := by
  obtain ⟨hb1, hw2, hb2, hw3, hb3, hout⟩ := hv
  have h1 : npMatMulRow x M.W1 = .ok (rowMatMul x M.W1) := by
    simp [npMatMulRow, hx]
  have h2 : npAddRow (rowMatMul x M.W1) M.b1 = .ok (specAffine x M.W1 M.b1) :=
    affine_ok x M.W1 M.b1 hx hb1
  set a1 := specLeakyReLU (specAffine x M.W1 M.b1) with ha1
  have ha1len : a1.length = M.W2.length := by
    rw [ha1, specLeakyReLU_length, specAffine_length, hw2]
  have h3 : npMatMulRow a1 M.W2 = .ok (rowMatMul a1 M.W2) := by
    simp [npMatMulRow, ha1len]
  have h4 : npAddRow (rowMatMul a1 M.W2) M.b2 = .ok (specAffine a1 M.W2 M.b2) :=
    affine_ok a1 M.W2 M.b2 ha1len hb2
  set a2 := specLeakyReLU (specAffine a1 M.W2 M.b2) with ha2
  have ha2len : a2.length = M.W3.length := by
    rw [ha2, specLeakyReLU_length, specAffine_length, hw3]
  have h5 : npMatMulRow a2 M.W3 = .ok (rowMatMul a2 M.W3) := by
    simp [npMatMulRow, ha2len]
  have h6 : npAddRow (rowMatMul a2 M.W3) M.b3 = .ok (specAffine a2 M.W3 M.b3) :=
    affine_ok a2 M.W3 M.b3 ha2len hb3
  have hz3ne : specAffine a2 M.W3 M.b3 ≠ [] := by
    intro hnil
    have := specAffine_length a2 M.W3 M.b3
    rw [hnil] at this
    exact hout this.symm
  have h7 : softmaxRow (specAffine a2 M.W3 M.b3) = .ok (specSoftmax (specAffine a2 M.W3 M.b3)) :=
    softmaxRow_eq_spec _ hz3ne
  simp only [forwardPass, h1, h2, leakyRelu_eq_spec, ← ha1, h3, h4, ← ha2, h5, h6, h7,
    specForward]

theorem flattenRowMajor_length (img : PILImage) : (flattenRowMajor img).length = 1024 := by
  have hc : List.map (List.length ∘ fun r => List.map (fun c => ((img.pix r c : ℕ) : ℝ))
      (List.range 32)) (List.range 32) = List.map (fun _ => 32) (List.range 32) := by
    apply List.map_congr_left
    intro r hr
    simp [Function.comp]
  rw [flattenRowMajor, List.length_flatMap, hc, List.map_const', List.sum_replicate]
  simp

theorem flatMap_getD (m : ℕ) :
    ∀ (q : ℕ) (f : ℕ → List ℝ), (∀ i, (f i).length = m) → ∀ (n c : ℕ), q < n → c < m →
      ((List.range n).flatMap f).getD (m * q + c) 0 = (f q).getD c 0
  | 0, f, hm, n, c, hq, hc => by
    cases n with
    | zero => omega
    | succ n2 =>
      rw [List.range_succ_eq_map, List.flatMap_cons]
      have hz : m * 0 + c = c := by ring
      rw [hz]
      exact List.getD_append _ _ _ c (by rw [hm 0]; exact hc)
  | q + 1, f, hm, n, c, hq, hc => by
    cases n with
    | zero => omega
    | succ n2 =>
      rw [List.range_succ_eq_map, List.flatMap_cons]
      have harith : m * (q + 1) + c = m + (m * q + c) := by ring
      have hle : (f 0).length ≤ m * (q + 1) + c := by
        rw [hm 0]; omega
      rw [List.getD_append_right _ _ _ _ hle]
      have hsub : m * (q + 1) + c - (f 0).length = m * q + c := by
        rw [hm 0]; omega
      rw [hsub]
      have hmapflat : (List.map Nat.succ (List.range n2)).flatMap f =
          (List.range n2).flatMap (fun i => f (i + 1)) := by
        simp [List.flatMap_map, Function.comp]
      rw [hmapflat]
      exact flatMap_getD m q (fun i => f (i + 1)) (fun i => hm (i + 1)) n2 c (by omega) hc

theorem flattenRowMajor_getD (g : ℕ → ℕ → ℕ) (k : ℕ) (hk : k < 1024) :
    (flattenRowMajor ⟨g⟩).getD k 0 = ((g (k / 32) (k % 32) : ℕ) : ℝ) := by
  have hrow : ∀ i, ((List.range 32).map (fun c => ((g i c : ℕ) : ℝ))).length = 32 := by
    intro i; simp
  have hq : k / 32 < 32 := by omega
  have hc : k % 32 < 32 := by omega
  have hidx : 32 * (k / 32) + k % 32 = k := Nat.div_add_mod k 32
  have := flatMap_getD 32 (k / 32)
    (fun r => (List.range 32).map (fun c => ((g r c : ℕ) : ℝ))) hrow 32 (k % 32) hq hc
  rw [hidx] at this
  rw [show flattenRowMajor ⟨g⟩ =
    (List.range 32).flatMap (fun r => (List.range 32).map (fun c => ((g r c : ℕ) : ℝ))) from rfl]
  rw [this]
  rw [List.getD_eq_getElem _ _ (by simpa using hc)]
  simp

theorem zipWith_getD (f : ℝ → ℝ × ℝ → ℝ) :
    ∀ (l1 : List ℝ) (l2 : List (ℝ × ℝ)) (k : ℕ), k < l1.length → k < l2.length →
      (List.zipWith f l1 l2).getD k 0 = f (l1.getD k 0) (l2.getD k ((0 : ℝ), (0 : ℝ)))
  | [], _, k, h1, _ => by simp at h1
  | _ :: _, [], k, _, h2 => by simp at h2
  | a :: t1, b :: t2, 0, _, _ => by
    simp [List.getD_cons_zero]
  | a :: t1, b :: t2, k + 1, h1, h2 => by
    simp only [List.zipWith_cons_cons, List.getD_cons_succ]
    exact zipWith_getD f t1 t2 k (by simpa using h1) (by simpa using h2)

theorem zip_getD :
    ∀ (l1 l2 : List ℝ) (k : ℕ), k < l1.length → k < l2.length →
      (l1.zip l2).getD k ((0 : ℝ), (0 : ℝ)) = (l1.getD k 0, l2.getD k 0)
  | [], _, k, h1, _ => by simp at h1
  | _ :: _, [], k, _, h2 => by simp at h2
  | a :: t1, b :: t2, 0, _, _ => by
    simp [List.getD_cons_zero]
  | a :: t1, b :: t2, k + 1, h1, h2 => by
    simp only [List.zip_cons_cons, List.getD_cons_succ]
    exact zip_getD t1 t2 k (by simpa using h1) (by simpa using h2)

/-- C6: for every decodable input image (given as decodable bytes or as an
already-decoded image carrying its 32×32 grayscale grid) and a loaded model
whose scaler is fitted on 1024 features, preprocessing succeeds and outputs
a 1024-element feature row whose entry `k` is the row-major pixel
`(k / 32, k % 32)` scaled per dimension as `(raw - mean) / scale`. -/
theorem C6_preprocessing_shape_and_scaling (svc : MLService) (M : ModelBundle)
    (g : ℕ → ℕ → ℕ) (hm : svc.model = some M)
    (hmean : M.scaler.mean.length = 1024) (hscale : M.scaler.scale.length = 1024) :
    ∃ v, preprocessSvc svc (.pil ⟨g⟩) = .ok v ∧
      preprocessSvc svc (.bytes (.decodable ⟨g⟩)) = .ok v ∧
      v.length = 1024 ∧
      ∀ k < 1024, v.getD k 0 =
        (((g (k / 32) (k % 32) : ℕ) : ℝ) - M.scaler.mean.getD k 0) / M.scaler.scale.getD k 0 := by
  have hflen := flattenRowMajor_length ⟨g⟩
  have hcond : (flattenRowMajor ⟨g⟩).length = M.scaler.mean.length ∧
      (flattenRowMajor ⟨g⟩).length = M.scaler.scale.length := by
    rw [hflen, hmean, hscale]; exact ⟨rfl, rfl⟩
  have htr : scalerTransform M.scaler (flattenRowMajor ⟨g⟩) =
      .ok (List.zipWith (fun a p => (a - p.1) / p.2) (flattenRowMajor ⟨g⟩)
        (M.scaler.mean.zip M.scaler.scale)) := by
    unfold scalerTransform
    rw [if_pos hcond]
  have hvlen : (List.zipWith (fun a p => (a - p.1) / p.2) (flattenRowMajor ⟨g⟩)
      (M.scaler.mean.zip M.scaler.scale)).length = 1024 := by
    simp [hflen, hmean, hscale]
  have hpre : preprocessDecoded svc ⟨g⟩ =
      .ok (List.zipWith (fun a p => (a - p.1) / p.2) (flattenRowMajor ⟨g⟩)
        (M.scaler.mean.zip M.scaler.scale)) := by
    simp only [preprocessDecoded, hm, htr]
  refine ⟨List.zipWith (fun a p => (a - p.1) / p.2) (flattenRowMajor ⟨g⟩)
    (M.scaler.mean.zip M.scaler.scale), ?_, ?_, hvlen, ?_⟩
  · simpa [preprocessSvc] using hpre
  · simpa [preprocessSvc] using hpre
  · intro k hk
    have hzlen : (M.scaler.mean.zip M.scaler.scale).length = 1024 := by
      rw [List.length_zip, hmean, hscale]
      omega
    rw [zipWith_getD _ _ _ k (by omega) (by omega)]
    rw [zip_getD _ _ k (by omega) (by omega)]
    rw [flattenRowMajor_getD g k hk]

/-- C7: for every input row whose length mismatches the first weight
input dimension of the first weight matrix, the inference engine raises the numpy matmul
shape error (reported per request, see `C2`); the mismatch is never
silently coerced into an output. -/
theorem C7_shape_mismatch_raises (M : ModelBundle) (x : List ℝ)
    (h : x.length ≠ M.W1.length) :
    forwardPass M x = .error "matmul: input operand 1 has a mismatch in its core dimension 0" ∧
      ∀ y, forwardPass M x ≠ .ok y := by
  have h1 : npMatMulRow x M.W1 =
      .error "matmul: input operand 1 has a mismatch in its core dimension 0" := by
    simp [npMatMulRow, h]
  constructor
  · simp only [forwardPass, h1]
  · intro y
    simp only [forwardPass, h1]
    simp

/-- C8: if the model artifact file is missing or malformed,
`MLPredictionService` initialization (run at import time for the global
`ml_service`) raises an uncaught exception instead of producing a service
value, so the process never becomes able to serve predictions; the failure
is an `Except.error` of the constructor, not a per-request
`success = false` result. -/
theorem C8_startup_failure_is_fatal :
    initService .missing =
      .error "ML model file not found. Please ensure the model is properly installed." ∧
      ∀ e, initService (.malformed e) = .error ("Failed to load ML model: " ++ e) :=
  ⟨rfl, fun _ => rfl⟩

/-- C9 counterexample: an artifact file that pickles `None` makes the
constructor return normally with `self.model = None`, and the
`"Model not loaded"` branches of `_forward_pass` and `get_model_info`
are then taken — so the claim, quantified over every normally-constructed
instance, is false. -/
theorem C9_counterexample_pickled_none :
    initService (.pickled none) = .ok ⟨none⟩ ∧
      (⟨none⟩ : MLService).model = none ∧
      forwardPassSvc ⟨none⟩ [] = .error "Model not loaded. Cannot perform prediction." ∧
      (getModelInfo ⟨none⟩).loaded = false ∧
      (getModelInfo ⟨none⟩).error = some "Model not loaded" :=
  ⟨rfl, rfl, rfl, rfl, rfl⟩

/-- C9 (amended): whenever the constructor returns normally, `self.model`
equals the deserialized artifact content; whenever that content is not
`None` — as for any artifact actually encoding a model bundle — the
`"Model not loaded"` branches in `_forward_pass` and `get_model_info` are
bypassed: the forward pass delegates to the loaded bundle and
`get_model_info` reports the loaded-model dictionary. -/
theorem C9_model_present_after_init (f : ArtifactFile) (s : MLService)
    (h : initService f = .ok s) :
    (∃ v, f = .pickled v ∧ s.model = v) ∧
      ∀ M, s.model = some M →
        (∀ x, forwardPassSvc s x = forwardPass M x) ∧
        getModelInfo s = { loaded := true, error := none,
                           model_type := some "Neural Network",
                           input_shape := some "32x32 grayscale",
                           output_classes := some labelMap.length,
                           class_labels := labelMap } := by
  cases f with
  | missing => exact absurd h (by simp [initService, loadModel])
  | malformed e => exact absurd h (by simp [initService, loadModel])
  | pickled v =>
    have hs : s = ⟨v⟩ := by
      simp only [initService, loadModel] at h
      exact ((Except.ok.injEq _ _).mp h).symm
    subst hs
    refine ⟨⟨v, rfl, rfl⟩, ?_⟩
    intro M hM
    have hv : v = some M := hM
    subst hv
    exact ⟨fun x => rfl, rfl⟩

/-- C10: whenever the ML prediction succeeds but the repository update of
the image record fails (returns `None`), the controller still returns a
`success = true` response with status 200 containing the full prediction
data plus a warning that the results could not be saved; the persistence
failure never discards or downgrades the successful prediction. -/
theorem C10_save_failure_keeps_success (svc : MLService) (input : ImageInput)
    (imageId : String) (repoUpdate : String → PredictionResult → Option ImageRecord)
    (hid : imageId ≠ "")
    (hsucc : (predictBrainTumor svc input).success = true)
    (hrepo : repoUpdate imageId (predictBrainTumor svc input) = none) :
    predictAndSave svc (some input) imageId repoUpdate =
      ({ message := some "Brain tumor prediction completed but failed to save to database",
         error := none, success := true, data := some (predictBrainTumor svc input),
         updated_image := none,
         warning := some "Prediction results could not be saved to database" }, 200) := by
  simp only [predictAndSave, if_neg hid, hsucc, if_true, hrepo]

theorem leakyRelu_zero : leakyRelu [(0 : ℝ)] = [0] := by
  simp [leakyRelu, leakyAlpha]

theorem softmaxRow_zero4 :
    softmaxRow [(0 : ℝ), 0, 0, 0] = .ok [1 / 4, 1 / 4, 1 / 4, 1 / 4] := by
  simp [softmaxRow, listMax, Real.exp_zero]
  norm_num

theorem unit_tail_eval :
    npMatMulRow [(0 : ℝ)] [[(0 : ℝ)]] = .ok [0] ∧
      npAddRow [(0 : ℝ)] [(0 : ℝ)] = .ok [0] ∧
      npMatMulRow [(0 : ℝ)] [[(0 : ℝ), 0, 0, 0]] = .ok [0, 0, 0, 0] ∧
      npAddRow [(0 : ℝ), 0, 0, 0] [(0 : ℝ), 0, 0, 0] = .ok [0, 0, 0, 0] := by
  have hr1 : List.range 1 = [0] := by decide
  have hr4 : List.range 4 = [0, 1, 2, 3] := by decide
  refine ⟨?_, ?_, ?_, ?_⟩
  · simp [npMatMulRow, rowMatMul, dotCol, matCols, hr1]
  · simp [npAddRow]
  · simp [npMatMulRow, rowMatMul, dotCol, matCols, hr4]
  · simp [npAddRow]

theorem unit_forward_eval :
    forwardPass unitModel [0] = .ok [1 / 4, 1 / 4, 1 / 4, 1 / 4] := by
  obtain ⟨h1, h2, h5, h6⟩ := unit_tail_eval
  simp only [forwardPass, unitModel, h1, h2, leakyRelu_zero, h5, h6, softmaxRow_zero4]

theorem headD_replicate (n : ℕ) (a d : List ℝ) (hn : n ≠ 0) :
    (List.replicate n a).headD d = a := by
  cases n with
  | zero => omega
  | succ n2 => rfl

theorem flatMap_const_replicate (m : ℕ) (a : ℝ) :
    ∀ (l : List ℕ), l.flatMap (fun _ => List.replicate m a) = List.replicate (m * l.length) a
  | [] => by simp
  | x :: t => by
    rw [List.flatMap_cons, flatMap_const_replicate m a t]
    rw [← List.replicate_add]
    rw [List.length_cons]
    congr 1
    ring

theorem flatten_zero : flattenRowMajor zeroImg = List.replicate 1024 (0 : ℝ) := by
  have hfun : (fun r => (List.range 32).map (fun c => ((zeroImg.pix r c : ℕ) : ℝ))) =
      (fun _ : ℕ => List.replicate 32 (0 : ℝ)) := by
    funext r
    rw [show (fun c => ((zeroImg.pix r c : ℕ) : ℝ)) = (fun _ : ℕ => (0 : ℝ)) from by
      funext c; simp [zeroImg]]
    rw [List.map_const', List.length_range]
  rw [flattenRowMajor, hfun, flatMap_const_replicate, List.length_range]

theorem base_scaler_eval :
    scalerTransform baseModel.scaler (List.replicate 1024 (0 : ℝ)) =
      .ok (List.replicate 1024 (0 : ℝ)) := by
  have hmean : baseModel.scaler.mean = List.replicate 1024 (0 : ℝ) := rfl
  have hscale : baseModel.scaler.scale = List.replicate 1024 (1 : ℝ) := rfl
  have hc : (List.replicate 1024 (0 : ℝ)).length = baseModel.scaler.mean.length ∧
      (List.replicate 1024 (0 : ℝ)).length = baseModel.scaler.scale.length := by
    rw [hmean, hscale, List.length_replicate, List.length_replicate]
    exact ⟨rfl, rfl⟩
  have hzip : baseModel.scaler.mean.zip baseModel.scaler.scale =
      List.replicate 1024 ((0 : ℝ), (1 : ℝ)) := by
    rw [hmean, hscale, List.zip_replicate]
    norm_num
  unfold scalerTransform
  rw [if_pos hc]
  congr 1
  rw [hzip, List.zipWith_replicate]
  norm_num

theorem preprocess_base :
    preprocessSvc baseSvc (.pil zeroImg) = .ok (List.replicate 1024 (0 : ℝ)) := by
  simp only [preprocessSvc, preprocessDecoded]
  rw [show baseSvc.model = some baseModel from rfl]
  simp only [flatten_zero, base_scaler_eval]

theorem base_forward_eval :
    forwardPass baseModel (List.replicate 1024 (0 : ℝ)) = .ok [1 / 4, 1 / 4, 1 / 4, 1 / 4] := by
  obtain ⟨h1u, h2, h5, h6⟩ := unit_tail_eval
  have hr1 : List.range 1 = [0] := by decide
  have hcols : matCols (List.replicate 1024 [(0 : ℝ)]) = 1 := by
    rw [matCols, headD_replicate 1024 [(0 : ℝ)] [] (by norm_num)]
    rfl
  have hdot : dotCol (List.replicate 1024 (0 : ℝ)) (List.replicate 1024 [(0 : ℝ)]) 0 = 0 := by
    unfold dotCol
    rw [List.zipWith_replicate, List.sum_replicate]
    simp only [zero_mul, smul_zero]
  have h1 : npMatMulRow (List.replicate 1024 (0 : ℝ)) (List.replicate 1024 [(0 : ℝ)]) =
      .ok [0] := by
    unfold npMatMulRow
    rw [if_pos (by rw [List.length_replicate, List.length_replicate])]
    rw [rowMatMul, hcols, hr1]
    simp only [List.map_cons, List.map_nil, hdot]
  simp only [forwardPass, baseModel, h1, h2, leakyRelu_zero, h1u, h5, h6, softmaxRow_zero4]

/-- The fully evaluated successful prediction of `baseSvc` on `zeroImg`. -/
theorem predict_base :
    predictBrainTumor baseSvc (.pil zeroImg) =
      { success := true, error := none, predicted_class := some 0,
        tumor_type := some "glioma", confidence := 1 / 4,
        probabilities := [1 / 4, 1 / 4, 1 / 4, 1 / 4],
        class_probabilities := [("glioma", 1 / 4), ("meningioma", 1 / 4),
                                ("notumor", 1 / 4), ("pituitary", 1 / 4)],
        message := some ("Brain scan classified as: " ++ "glioma") } := by
  have hargmax : npArgmax [(1 : ℝ) / 4, 1 / 4, 1 / 4, 1 / 4] = 0 := by
    norm_num [npArgmax, listMax]
  have hmaxv : npMaxE [(1 : ℝ) / 4, 1 / 4, 1 / 4, 1 / 4] = .ok (1 / 4) := by
    simp [npMaxE, listMax]
  have hlab : labelGet 0 = .ok "glioma" := rfl
  have hcps : classProbabilities [(1 : ℝ) / 4, 1 / 4, 1 / 4, 1 / 4] =
      .ok [("glioma", 1 / 4), ("meningioma", 1 / 4), ("notumor", 1 / 4),
           ("pituitary", 1 / 4)] := rfl
  have hfwdsvc : forwardPassSvc baseSvc (List.replicate 1024 (0 : ℝ)) =
      .ok [1 / 4, 1 / 4, 1 / 4, 1 / 4] := by
    simp only [forwardPassSvc]
    rw [show baseSvc.model = some baseModel from rfl]
    exact base_forward_eval
  simp only [predictBrainTumor, predictExcept, preprocess_base, hfwdsvc, hargmax, hlab,
    hmaxv, hcps]

/-- Witness: `unitModel` satisfies the dimension hypotheses of `C1` and the
forward pass on `[0]` equals the spec graph there. -/
theorem C1_forward_pass_is_spec_graph_witness :
    validDims unitModel ∧ ([(0 : ℝ)]).length = unitModel.W1.length ∧
      forwardPass unitModel [0] = .ok (specForward unitModel [0]) := by
  have hv : validDims unitModel := ⟨rfl, rfl, rfl, rfl, rfl, by decide⟩
  exact ⟨hv, rfl, C1_forward_pass_is_spec_graph unitModel [0] hv rfl⟩

/-- Witness: the concrete successful prediction of `baseSvc` on the
all-black image satisfies the formatter-consistency conclusion of `C3`. -/
theorem C3_formatter_consistency_witness :
    (predictBrainTumor baseSvc (.pil zeroImg)).success = true ∧
      ∃ probs, (predictBrainTumor baseSvc (.pil zeroImg)).probabilities = probs ∧
        (predictBrainTumor baseSvc (.pil zeroImg)).predicted_class = some (npArgmax probs) ∧
        npArgmax probs < probs.length ∧
        probs.getD (npArgmax probs) 0 = listMax probs ∧
        (∀ k < npArgmax probs, probs.getD k 0 < listMax probs) ∧
        (predictBrainTumor baseSvc (.pil zeroImg)).tumor_type = labelMap.get? (npArgmax probs) ∧
        (predictBrainTumor baseSvc (.pil zeroImg)).confidence = probs.getD (npArgmax probs) 0 ∧
        (predictBrainTumor baseSvc (.pil zeroImg)).class_probabilities =
          (List.range labelMap.length).map (fun i => (labelMap.getD i "", probs.getD i 0)) :=
  ⟨by rw [predict_base], C3_formatter_consistency baseSvc (.pil zeroImg) (by rw [predict_base])⟩

/-- Witness: the forward pass of `unitModel` on `[0]` returns the exact
uniform probability vector, which is non-negative and sums to 1. -/
theorem C4_output_is_probability_vector_witness :
    forwardPass unitModel [0] = .ok [1 / 4, 1 / 4, 1 / 4, 1 / 4] ∧
      matCols unitModel.W3 = 4 ∧ unitModel.b3.length = matCols unitModel.W3 ∧
      (([(1 : ℝ) / 4, 1 / 4, 1 / 4, 1 / 4]).length = 4 ∧
        (∀ p ∈ [(1 : ℝ) / 4, 1 / 4, 1 / 4, 1 / 4], 0 ≤ p) ∧
        ([(1 : ℝ) / 4, 1 / 4, 1 / 4, 1 / 4]).sum = 1) :=
  ⟨unit_forward_eval, rfl, rfl, C4_output_is_probability_vector unit_forward_eval rfl rfl⟩

/-- Witness: the concrete successful prediction of `baseSvc` on the
all-black image has confidence at least `0.25`. -/
theorem C5_confidence_at_least_uniform_witness :
    baseSvc.model = some baseModel ∧ matCols baseModel.W3 = 4 ∧
      baseModel.b3.length = matCols baseModel.W3 ∧
      (predictBrainTumor baseSvc (.pil zeroImg)).success = true ∧
      (1 : ℝ) / 4 ≤ (predictBrainTumor baseSvc (.pil zeroImg)).confidence :=
  ⟨rfl, rfl, rfl, by rw [predict_base],
    C5_confidence_at_least_uniform baseSvc baseModel (.pil zeroImg) rfl rfl rfl
      (by rw [predict_base])⟩

/-- Witness: preprocessing the all-black image with `baseSvc` satisfies the
shape-and-scaling conclusion of `C6`. -/
theorem C6_preprocessing_shape_and_scaling_witness :
    baseSvc.model = some baseModel ∧ baseModel.scaler.mean.length = 1024 ∧
      baseModel.scaler.scale.length = 1024 ∧
      ∃ v, preprocessSvc baseSvc (.pil ⟨fun _ _ => 0⟩) = .ok v ∧
        preprocessSvc baseSvc (.bytes (.decodable ⟨fun _ _ => 0⟩)) = .ok v ∧
        v.length = 1024 ∧
        ∀ k < 1024, v.getD k 0 =
          ((((fun _ _ => 0 : ℕ → ℕ → ℕ) (k / 32) (k % 32) : ℕ) : ℝ) -
            baseModel.scaler.mean.getD k 0) / baseModel.scaler.scale.getD k 0 := by
  have hmeanlen : baseModel.scaler.mean.length = 1024 := by
    rw [show baseModel.scaler.mean = List.replicate 1024 (0 : ℝ) from rfl,
      List.length_replicate]
  have hscalelen : baseModel.scaler.scale.length = 1024 := by
    rw [show baseModel.scaler.scale = List.replicate 1024 (1 : ℝ) from rfl,
      List.length_replicate]
  exact ⟨rfl, hmeanlen, hscalelen,
    C6_preprocessing_shape_and_scaling baseSvc baseModel (fun _ _ => 0) rfl hmeanlen hscalelen⟩

/-- Witness: a length-2 input against `unitModel` (input dimension 1)
makes the forward pass raise the matmul shape error. -/
theorem C7_shape_mismatch_raises_witness :
    ([(0 : ℝ), 0]).length ≠ unitModel.W1.length ∧
      (forwardPass unitModel [0, 0] =
        .error "matmul: input operand 1 has a mismatch in its core dimension 0" ∧
        ∀ y, forwardPass unitModel [0, 0] ≠ .ok y) :=
  ⟨by decide, C7_shape_mismatch_raises unitModel [0, 0] (by decide)⟩

/-- Witness: loading an artifact that pickles an actual bundle yields a
service whose model is that bundle and whose not-loaded branches are
bypassed. -/
theorem C9_model_present_after_init_witness :
    initService (.pickled (some unitModel)) = .ok ⟨some unitModel⟩ ∧
      ((∃ v, ArtifactFile.pickled (some unitModel) = ArtifactFile.pickled v ∧
          (⟨some unitModel⟩ : MLService).model = v) ∧
        ∀ M, (⟨some unitModel⟩ : MLService).model = some M →
          (∀ x, forwardPassSvc ⟨some unitModel⟩ x = forwardPass M x) ∧
          getModelInfo ⟨some unitModel⟩ = { loaded := true, error := none,
                                            model_type := some "Neural Network",
                                            input_shape := some "32x32 grayscale",
                                            output_classes := some labelMap.length,
                                            class_labels := labelMap }) :=
  ⟨rfl, C9_model_present_after_init (.pickled (some unitModel)) ⟨some unitModel⟩ rfl⟩

/-- Witness: with a repository update that fails, the controller still
returns the 200 success-with-warning response around the concrete
successful prediction. -/
theorem C10_save_failure_keeps_success_witness :
    ("img-1" : String) ≠ "" ∧
      (predictBrainTumor baseSvc (.pil zeroImg)).success = true ∧
      (fun (_ : String) (_ : PredictionResult) => (none : Option ImageRecord)) "img-1"
        (predictBrainTumor baseSvc (.pil zeroImg)) = none ∧
      predictAndSave baseSvc (some (.pil zeroImg)) "img-1" (fun _ _ => none) =
        ({ message := some "Brain tumor prediction completed but failed to save to database",
           error := none, success := true,
           data := some (predictBrainTumor baseSvc (.pil zeroImg)),
           updated_image := none,
           warning := some "Prediction results could not be saved to database" }, 200) :=
  ⟨by decide, by rw [predict_base], rfl,
    C10_save_failure_keeps_success baseSvc (.pil zeroImg) "img-1" (fun _ _ => none)
      (by decide) (by rw [predict_base]) rfl⟩

end

end NeuroView
